import Mathlib

/-
Verification development for the llm-newsletter-kit-core pipeline library.

The definitions below are a shallow embedding of the TypeScript source:
* the resilient HTTP fetcher (src/generate-newsletter/utils/get-html-from-url.ts),
* the crawl chain (crawling.chain.ts): list parse, dedup, detail fetch/parse,
  correlation-id merge, save, and the group batch driver,
* the enrichment loop (analysis insights chain): classify / image-context /
  merge / importance passes and the bounded reprocess loop,
* the orchestrator's task-lifecycle wrapper (generate-newsletter.ts).

JavaScript numbers are modelled as Int where only integer arithmetic and
ordering matter; JS objects are modelled as ordered association lists; the
environment (fetch results, model calls, headers, random jitter, uuids) is
passed in as explicit parameters so every run of the code is a value of the
model.
-/

set_option maxHeartbeats 1000000

/-! ## Resilient fetcher: get-html-from-url.ts -/

/-- Bool-valued substring test used to model JavaScript
String.prototype.includes. -/
def strHasSub (s pat : String) : Bool :=
  (List.range (s.data.length + 1)).any fun i =>
    (s.data.drop i).take pat.data.length == pat.data

/-- JavaScript String.prototype.toLowerCase over the character list. -/
def jsToLowerCase (s : String) : String := String.mk (s.data.map Char.toLower)

/-- clamp from get-html-from-url.ts: Math.max(min, Math.min(max, n)). -/
def clamp (n lo hi : Int) : Int := max lo (min hi n)

/-- Parse outcome of a Retry-After header value, classifying the string the
way parseRetryAfter does: absent header, a numeric seconds value
(Number(header) is not NaN), an HTTP date with a given epoch-milliseconds
value, or a malformed string (neither numeric nor a valid date). -/
inductive RetryAfterHeader where
  | absent
  | seconds (n : Int)
  | httpDate (epochMs : Int)
  | malformed
deriving DecidableEq, Repr

/-- parseRetryAfter from get-html-from-url.ts, over the header classification
and the current clock Date.now() = now (milliseconds). Seconds values are
clamped to [0, 60000] ms; a date is used only when strictly in the future,
clamped likewise; otherwise the header counts as absent (null). -/
def parseRetryAfter (h : RetryAfterHeader) (now : Int) : Option Int :=
  match h with
  | .absent => none
  | .seconds n => some (clamp (n * 1000) 0 60000)
  | .httpDate t =>
      let diff := t - now
      if 0 < diff then some (clamp diff 0 60000) else none
  | .malformed => none

/-- A JS thrown value: isError models (error instanceof Error); msg is
error.message for an Error, and String(error) otherwise. -/
structure Thrown where
  isError : Bool
  msg : String
deriving DecidableEq, Repr

/-- The error-message arm of shouldRetry: the thrown value is an Error and
its lowercased message includes aborted / timeout / network / fetch. -/
def errorRetryable (e : Thrown) : Bool :=
  let m := jsToLowerCase e.msg
  e.isError &&
    (strHasSub m "aborted" || strHasSub m "timeout" ||
     strHasSub m "network" || strHasSub m "fetch")

/-- JS truthiness of a (number | null) status value. -/
def jsTruthyStatus : Option Nat → Bool
  | none => false
  | some n => n != 0

/-- shouldRetry from get-html-from-url.ts. status none models null. -/
def shouldRetry (status : Option Nat) (error : Option Thrown) : Bool :=
  if status == some 429 then true
  else if jsTruthyStatus status && 500 ≤ status.getD 0 then true
  else if jsTruthyStatus status && 400 ≤ status.getD 0 && status.getD 0 < 500 then false
  else
    match error with
    | some e => errorRetryable e
    | none => false

/-- Outcome the environment produces for one fetch attempt: either an HTTP
response (with status, Retry-After classification and body text) or a thrown
value. -/
inductive AttemptOutcome where
  | response (status : Nat) (retryAfter : RetryAfterHeader) (body : String)
  | thrown (e : Thrown)
deriving DecidableEq, Repr

/-- Result of getHtmlFromUrl together with the attempt number (1-based) on
which the call returned or failed. -/
inductive FetchResult where
  | success (body : String) (attempt : Nat)
  | failure (msg : String) (attempt : Nat)
deriving DecidableEq, Repr

/-- The attempt number recorded in a FetchResult. -/
def FetchResult.attempt : FetchResult → Nat
  | .success _ a => a
  | .failure _ a => a

/-- Fetch-spec response.ok: status in the range 200..299. -/
def responseOk (status : Nat) : Bool := 200 ≤ status && status < 300

/-- maxRetries from getHtmlFromUrl. -/
def maxRetries : Nat := 5

/-- Exponential backoff with jitter: Math.pow(2, attempt - 1) * 1000 plus the
sampled Math.random() * 1000 value, which is passed in as jitter. -/
def backoffMs (attempt : Nat) (jitter : Int) : Int :=
  2 ^ (attempt - 1) * 1000 + jitter

/-- Error message built for a non-ok response; the source appends the url,
which is not part of this model. -/
def statusFailMsg (status : Nat) : String :=
  "Request failed (status=" ++ toString status ++ ")"

/-- The retry loop of getHtmlFromUrl. env gives the outcome of each attempt
(1-based); now is Date.now(); jitter the Math.random()*1000 sample of each
attempt. fuel counts the loop iterations that may still run; the loop is
entered with fuel = maxRetries and attempt = 1, so the fuel-0 branch is
unreachable. Returns the result and the list of retry delays slept. -/
def fetchGo (env : Nat → AttemptOutcome) (now : Int) (jitter : Nat → Int) :
    Nat → Nat → FetchResult × List Int
  | _, 0 => (.failure "unreachable" 0, [])
  | attempt, fuel + 1 =>
    match env attempt with
    | .response status ra body =>
      if responseOk status then
        (.success body attempt, [])
      else
        let retryAfterMs := parseRetryAfter ra now
        let canRetry := shouldRetry (some status) none
        if !canRetry || attempt == maxRetries then
          (.failure (statusFailMsg status) attempt, [])
        else
          let backoff := backoffMs attempt (jitter attempt)
          let delay :=
            match retryAfterMs with
            | some r => max r backoff
            | none => backoff
          let rest := fetchGo env now jitter (attempt + 1) fuel
          (rest.1, delay :: rest.2)
    | .thrown e =>
      let canRetry := shouldRetry none (some e)
      if !canRetry || attempt == maxRetries then
        (.failure e.msg attempt, [])
      else
        let rest := fetchGo env now jitter (attempt + 1) fuel
        (rest.1, backoffMs attempt (jitter attempt) :: rest.2)

/-- getHtmlFromUrl: run the retry loop from attempt 1 with maxRetries
iterations available. -/
def getHtmlFromUrl (env : Nat → AttemptOutcome) (now : Int) (jitter : Nat → Int) :
    FetchResult × List Int :=
  fetchGo env now jitter 1 maxRetries

/-- Modelled from the spec words of claim C1, for comparison with the code's
errorRetryable: an error message that mentions abort / timeout / network /
fetch. -/
def specErrorRetryable (msg : String) : Bool :=
  let m := jsToLowerCase msg
  strHasSub m "abort" || strHasSub m "timeout" ||
  strHasSub m "network" || strHasSub m "fetch"

/-! ## JS objects and the crawl merge stage: crawling.chain.ts -/

/-- Field values of crawled records; pipelineId values and page fields are
strings in the source, so a single string value type suffices for the
field-set and correlation claims. -/
abbrev Val := String

/-- A JS object as an ordered association list of fields. -/
abbrev Obj := List (String × Val)

/-- Property access o[k]: the first field with the given key, none for a JS
undefined access. -/
def lookupField (o : Obj) (k : String) : Option Val :=
  match o with
  | [] => none
  | (k2, v) :: rest => if k2 == k then some v else lookupField rest k

/-- Whether the object has the key. -/
def hasField (o : Obj) (k : String) : Bool := (lookupField o k).isSome

/-- es-toolkit omit(o, [k]): drop the field k. -/
def omitField (o : Obj) (k : String) : Obj := o.filter (fun p => p.1 != k)

/-- JS object spread in two parts: in a literal the later source wins, so
the fields of a whose key also occurs in b are superseded by b. The model
keeps the superseded position at b, which preserves lookup semantics. -/
def spreadObj (a b : Obj) : Obj :=
  a.filter (fun p => !(hasField b p.1)) ++ b

/-- The merged record built for one (list item, detail) pair in
mergeParsedArticles: spread of omit(listItem, [pipelineId]) then
omit(detail, [pipelineId]), detail fields winning. -/
def mergeRecord (listItem detail : Obj) : Obj :=
  spreadObj (omitField listItem "pipelineId") (omitField detail "pipelineId")

/-- The entry list of new Map(list.map(item => [item.pipelineId, item])). -/
def buildListItemMap (list : List Obj) : List (Option Val × Obj) :=
  list.map (fun item => (lookupField item "pipelineId", item))

/-- JS Map lookup over an entry list: for a duplicated key the entry added
last wins, so the tail is consulted first. -/
def mapGet (entries : List (Option Val × Obj)) (k : Option Val) : Option Obj :=
  match entries with
  | [] => none
  | (k2, v) :: rest =>
    match mapGet rest k with
    | some r => some r
    | none => if k2 == k then some v else none

/-- Render the pipelineId of a detail for the merge error message. -/
def pidString : Option Val → String
  | none => "undefined"
  | some s => s

/-- The map body of mergeParsedArticles: for each detail look up its list item
by pipelineId; a miss throws, aborting the whole map at the first unmatched
detail. -/
def mergeDetails (listItemMap : List (Option Val × Obj)) :
    List Obj → Except String (List Obj)
  | [] => .ok []
  | detail :: rest =>
    match mapGet listItemMap (lookupField detail "pipelineId") with
    | none =>
        .error ("No matching list item for detail with pipelineId: " ++
          pidString (lookupField detail "pipelineId"))
    | some listItem =>
      match mergeDetails listItemMap rest with
      | .error e => .error e
      | .ok merged => .ok (mergeRecord listItem detail :: merged)

/-- CrawlingChain.mergeParsedArticles: build the pipelineId map of the list
items, then merge every parsed detail with its correlated list item. -/
def mergeParsedArticles (list : List Obj) (parsedDetails : List Obj) :
    Except String (List Obj) :=
  mergeDetails (buildListItemMap list) parsedDetails

/-! ## The per-target crawl sub-pipeline -/

/-- The collaborators one target's sub-pipeline consumes, as pure functions
of their inputs: the html text getHtmlFromUrl returns for a url, the
target's parseList and parseDetail capabilities, and the provider's
fetchExistingArticlesByUrls lookup. A url is an Option Val because it is
read off an object field. -/
structure CrawlEnv where
  fetchHtml : Option Val → String
  parseListCap : String → List Obj
  parseDetailCap : String → Obj
  existingArticlesByUrls : List (Option Val) → List Obj

/-- parseListPageHtml: parse the list page and stamp every item with a fresh
pipelineId. randomUUID is modelled by a generator indexed by item position. -/
def parseListStage (env : CrawlEnv) (gen : Nat → String) (listPageHtml : String) :
    List Obj :=
  (env.parseListCap listPageHtml).enum.map
    (fun p => spreadObj p.2 [("pipelineId", gen p.1)])

/-- The existing-url set dedupeListItems builds: detailUrl fields of the
records returned by fetchExistingArticlesByUrls for the candidate urls. -/
def existingUrlSet (env : CrawlEnv) (parsedList : List Obj) : List (Option Val) :=
  (env.existingArticlesByUrls (parsedList.map (fun item => lookupField item "detailUrl"))).map
    (fun a => lookupField a "detailUrl")

/-- dedupeListItems: keep the items whose detailUrl is not already known. -/
def dedupeListItems (env : CrawlEnv) (parsedList : List Obj) : List Obj :=
  parsedList.filter
    (fun item => !((existingUrlSet env parsedList).contains (lookupField item "detailUrl")))

/-- The html plus correlation id records produced by fetchDetailPagesHtml. -/
structure HtmlWithPipelineId where
  html : String
  pipelineId : Option Val
deriving DecidableEq, Repr

/-- fetchDetailPagesHtml: fetch every surviving item's detail url, then
reattach each item's pipelineId by position; the source indexes list[index]
against the equally long html list, realized here as a zip. -/
def fetchDetailPagesHtml (env : CrawlEnv) (list : List Obj) : List HtmlWithPipelineId :=
  let htmlList := list.map (fun d => env.fetchHtml (lookupField d "detailUrl"))
  (htmlList.zip list).map
    (fun p => { html := p.1, pipelineId := lookupField p.2 "pipelineId" })

/-- The object literal of parseDetailPagesHtml places the pipelineId field
first and spreads the parsed detail over it; a missing id is a JS undefined
value, modelled as an absent field. -/
def pidEntry : Option Val → Obj
  | none => []
  | some v => [("pipelineId", v)]

/-- parseDetailPagesHtml: parse every detail html and stamp the result with
the pipelineId carried next to that html (index-aligned, realized as a zip).
A parsed detail carrying its own pipelineId field supersedes the stamp, as
the spread in the source does. -/
def parseDetailPagesHtml (env : CrawlEnv) (hs : List HtmlWithPipelineId) : List Obj :=
  let parsed := hs.map (fun h => env.parseDetailCap h.html)
  (parsed.zip hs).map (fun p => spreadObj (pidEntry p.2.pipelineId) p.1)

/-- One run of the per-target sub-pipeline, recording the intermediate
stage outputs the claims speak about: the parsed list, the dedup survivors,
the detail urls passed to getHtmlFromUrl by the detail-fetch stage, and the
merge outcome. -/
structure TargetRun where
  parsedList : List Obj
  survivors : List Obj
  fetchedDetailUrls : List (Option Val)
  mergeOutcome : Except String (List Obj)

/-- executeGroupPipeline's per-target chain (fetch list, parse list, dedupe,
fetch details, parse details, merge), with the stages composed in the order
the RunnablePassthrough pipeline pipes them. -/
def executeTargetPipeline (env : CrawlEnv) (gen : Nat → String)
    (listUrl : Option Val) : TargetRun :=
  let listPageHtml := env.fetchHtml listUrl
  let parsedList := parseListStage env gen listPageHtml
  let survivors := dedupeListItems env parsedList
  let htmls := fetchDetailPagesHtml env survivors
  let parsedDetails := parseDetailPagesHtml env htmls
  { parsedList := parsedList
    survivors := survivors
    fetchedDetailUrls := survivors.map (fun d => lookupField d "detailUrl")
    mergeOutcome := mergeParsedArticles survivors parsedDetails }

/-- The detail record the pipeline produces for one surviving list item:
parse the fetched html of its detailUrl and stamp its pipelineId. Used to
state which list item a merged record originates from. -/
def detailFor (env : CrawlEnv) (item : Obj) : Obj :=
  spreadObj (pidEntry (lookupField item "pipelineId"))
    (env.parseDetailCap (env.fetchHtml (lookupField item "detailUrl")))

/-! ## The group batch driver -/

/-- The batch collection semantics of chain.batch as invoked by
executeGroupPipeline: returnExceptions is not set, so the first sub-pipeline
rejection rejects the whole batch (Promise.all); the repository's own mock
of the runnables module implements the same fail-fast collection. Each
element is one target sub-pipeline's outcome: a saved count or an error. -/
def batchCollect : List (Except String Nat) → Except String (List Nat)
  | [] => .ok []
  | r :: rest =>
    match r with
    | .error e => .error e
    | .ok v =>
      match batchCollect rest with
      | .error e => .error e
      | .ok vs => .ok (v :: vs)

/-- executeGroupPipeline's aggregation: batch the per-target sub-pipelines
and sum the per-target saved counts into the group total. -/
def executeGroupPipeline (targetResults : List (Except String Nat)) :
    Except String Nat :=
  match batchCollect targetResults with
  | .error e => .error e
  | .ok counts => .ok (counts.foldl (fun s c => s + c) 0)

/-- Modelled from the spec words of claim C8, for comparison: a batch driver
that collects each target's outcome independently would let every succeeding
sibling contribute its saved count to the group total. -/
def specIndependentGroupTotal (targetResults : List (Except String Nat)) : Nat :=
  (targetResults.filterMap (fun r => r.toOption)).foldl (fun s c => s + c) 0

/-! ## Enrichment loop: the article insights chain -/

/-- The article shape the enrichment loop reads and writes: nullable tags
and image context, an optional importance score. -/
structure Article where
  id : Nat
  tag1 : Option String
  tag2 : Option String
  tag3 : Option String
  hasAttachedImage : Bool
  imageContextByLlm : Option String
  importanceScore : Option Int
deriving DecidableEq, Repr

/-- JS truthiness of a nullable string field: null and the empty string are
falsy. -/
def truthyStr : Option String → Bool
  | none => false
  | some s => s != ""

/-- JS truthiness of a nullable number field: null and 0 are falsy. -/
def truthyScore : Option Int → Bool
  | none => false
  | some n => n != 0

/-- The tag triple a classification call returns. -/
structure TagTriple where
  tag1 : Option String
  tag2 : Option String
  tag3 : Option String
deriving DecidableEq, Repr

/-- A per-article generated tag result, keyed by article id. -/
structure TagWithId where
  id : Nat
  tag1 : Option String
  tag2 : Option String
  tag3 : Option String
deriving DecidableEq, Repr

/-- A per-article generated image context, keyed by article id. -/
structure ImageCtxWithId where
  id : Nat
  imageContextByLlm : Option String
deriving DecidableEq, Repr

/-- The model-call collaborators of the insights chain, as functions that
either return a value or fail (a thrown model error). rawImportance is the
raw numeric output of the scoring model before schema validation. -/
structure ModelCaps where
  classify : Article → List String → Except String TagTriple
  analyzeImages : Article → Except String (Option String)
  rawImportance : Article → Except String Int

/-- The zod schema of DetermineArticleImportance: importanceScore must lie in
[1, 10]; any other model output fails validation and the call throws. -/
def zodValidateImportance (raw : Int) : Except String Int :=
  if 1 ≤ raw ∧ raw ≤ 10 then .ok raw else .error "importanceScore out of range"

/-- DetermineArticleImportance.execute: the raw model call followed by the
schema validation of its output. -/
def determineScore (caps : ModelCaps) (a : Article) : Except String Int :=
  match caps.rawImportance a with
  | .error e => .error e
  | .ok raw => zodValidateImportance raw

/-- pushTag from classifyArticles: append a generated tag to the running
vocabulary when it is truthy and not already present. -/
def pushTag (tags : List String) (t : Option String) : List String :=
  match t with
  | none => tags
  | some s => if s != "" && !(tags.contains s) then tags ++ [s] else tags

/-- classifyArticles: walk the provider's unscored articles in order; skip
an article whose three tags are already truthy; otherwise invoke the
classification model with the current vocabulary, push the generated tags
into the vocabulary and record them for the article; a model failure is
caught and skipped. Returns the final vocabulary, the generated tag records
in article order, and the number of model invocations. -/
def classifyGo (caps : ModelCaps) :
    List Article → List String → List String × List TagWithId × Nat
  | [], tags => (tags, [], 0)
  | a :: rest, tags =>
    if truthyStr a.tag1 && truthyStr a.tag2 && truthyStr a.tag3 then
      classifyGo caps rest tags
    else
      match caps.classify a tags with
      | .ok g =>
        let tags1 := pushTag (pushTag (pushTag tags g.tag1) g.tag2) g.tag3
        let r := classifyGo caps rest tags1
        (r.1, ⟨a.id, g.tag1, g.tag2, g.tag3⟩ :: r.2.1, r.2.2 + 1)
      | .error _ =>
        let r := classifyGo caps rest tags
        (r.1, r.2.1, r.2.2 + 1)

/-- extractImageContext: walk the articles in order; skip articles without an
attached image or with an existing truthy image context; otherwise invoke
the image model, recording a truthy result; a failure or falsy result is
skipped. Returns the records and the number of model invocations. -/
def imageGo (caps : ModelCaps) : List Article → List ImageCtxWithId × Nat
  | [] => ([], 0)
  | a :: rest =>
    if !a.hasAttachedImage then imageGo caps rest
    else if truthyStr a.imageContextByLlm then imageGo caps rest
    else
      match caps.analyzeImages a with
      | .ok ctx =>
        let r := imageGo caps rest
        if truthyStr ctx then (⟨a.id, ctx⟩ :: r.1, r.2 + 1) else (r.1, r.2 + 1)
      | .error _ =>
        let r := imageGo caps rest
        (r.1, r.2 + 1)

/-- mergeTagsAndImageContext: per article, overwrite the tags when a
generated tag record with its id exists, then overwrite the image context
when a generated context with its id exists; otherwise leave it unchanged. -/
def mergeTagsAndImageContext (articles : List Article)
    (genTags : List TagWithId) (genCtx : List ImageCtxWithId) : List Article :=
  articles.map (fun a =>
    let a1 :=
      match genTags.find? (fun t => t.id == a.id) with
      | some t => { a with tag1 := t.tag1, tag2 := t.tag2, tag3 := t.tag3 }
      | none => a
    match genCtx.find? (fun c => c.id == a1.id) with
    | some c => { a1 with imageContextByLlm := c.imageContextByLlm }
    | none => a1)

/-- determineImportance: score every merged article through the model; on a
model or validation failure assign the fallback score 1; no article is
dropped. Returns the scored articles in order and the number of model
invocations. -/
def determineGo (caps : ModelCaps) : List Article → List Article × Nat
  | [] => ([], 0)
  | a :: rest =>
    let r := determineGo caps rest
    match determineScore caps a with
    | .ok s => ({ a with importanceScore := some s } :: r.1, r.2 + 1)
    | .error _ => ({ a with importanceScore := some 1 } :: r.1, r.2 + 1)

/-- The result of one full pass of the insights chain. -/
structure PassOut where
  articles : List Article
  tags : List String
  classifyCalls : Nat
  imageCalls : Nat
  scoreCalls : Nat
deriving Repr

/-- One invocation of the insights chain: classify and image-extract over
the provider's unscored articles, merge both result sets in, then determine
importance for every merged article. The tag vocabulary is provider state
threaded between passes; the unscored article set itself is never
reassigned. -/
def runPass (caps : ModelCaps) (unscored : List Article) (tags0 : List String) :
    PassOut :=
  let c := classifyGo caps unscored tags0
  let im := imageGo caps unscored
  let merged := mergeTagsAndImageContext unscored c.2.1 im.1
  let d := determineGo caps merged
  { articles := d.1, tags := c.1, classifyCalls := c.2.2, imageCalls := im.2,
    scoreCalls := d.2 }

/-- The incomplete-article test of generateInsights: any falsy tag or falsy
importance score. -/
def isIncomplete (a : Article) : Bool :=
  !truthyStr a.tag1 || !truthyStr a.tag2 || !truthyStr a.tag3 ||
    !truthyScore a.importanceScore

/-- maxIterations of generateInsights. -/
def maxIterations : Nat := 5

/-- The outcome of the reprocess loop: the accumulator, the final
vocabulary, the iteration counter value at exit, and the model calls made
during the loop (excluding the initial pass). -/
structure LoopOut where
  articles : List Article
  tags : List String
  iterations : Nat
  classifyCalls : Nat
  imageCalls : Nat
  scoreCalls : Nat
deriving Repr

/-- The recursive reprocess of generateInsights: return the accumulator when
the iteration cap is reached or no article is incomplete; otherwise re-run
the full chain over the provider's unchanged unscored set, replace every
accumulator article by the reprocessed article sharing its id (keeping the
prior value when none exists), and recurse with the counter increased. -/
def reprocessGo (caps : ModelCaps) (unscored : List Article) :
    List Article → List String → Nat → LoopOut
  | current, tags, iteration =>
    if maxIterations ≤ iteration then
      { articles := current, tags := tags, iterations := iteration,
        classifyCalls := 0, imageCalls := 0, scoreCalls := 0 }
    else if (current.filter isIncomplete).length == 0 then
      { articles := current, tags := tags, iterations := iteration,
        classifyCalls := 0, imageCalls := 0, scoreCalls := 0 }
    else
      let p := runPass caps unscored tags
      let updated := current.map (fun a =>
        match p.articles.find? (fun r => r.id == a.id) with
        | some r => r
        | none => a)
      let rest := reprocessGo caps unscored updated p.tags (iteration + 1)
      { articles := rest.articles, tags := rest.tags,
        iterations := rest.iterations,
        classifyCalls := p.classifyCalls + rest.classifyCalls,
        imageCalls := p.imageCalls + rest.imageCalls,
        scoreCalls := p.scoreCalls + rest.scoreCalls }
  termination_by _ _ iteration => maxIterations - iteration
  decreasing_by simp_wf; omega

/-- ArticleInsightsChain.generateInsights: one initial pass of the chain,
then the bounded reprocess loop starting at iteration 0. -/
def generateInsights (caps : ModelCaps) (unscored : List Article)
    (tags0 : List String) : LoopOut :=
  let p0 := runPass caps unscored tags0
  let r := reprocessGo caps unscored p0.articles p0.tags 0
  { articles := r.articles, tags := r.tags, iterations := r.iterations,
    classifyCalls := p0.classifyCalls + r.classifyCalls,
    imageCalls := p0.imageCalls + r.imageCalls,
    scoreCalls := p0.scoreCalls + r.scoreCalls }

/-! ## Orchestrator task lifecycle: generate-newsletter.ts -/

/-- Observable events of the orchestrator's task management: the task
service acquire and release, the logging executor's events, and the
macro-pipeline running. -/
inductive TaskEv where
  | taskStart
  | logStart
  | pipelineRun
  | logDone
  | logError
  | taskEnd
deriving DecidableEq, Repr

/-- A run of the macro-pipeline: its outcome and the trace of events it
emits. -/
structure PipelineRun (α : Type) where
  outcome : Except String α
  trace : List TaskEv

/-- LoggingExecutor.executeWithLogging around the macro-pipeline: one start
event, the inner run, then a done event on success or an error event on
failure; the result or error is passed through unmodified. -/
def executeWithLoggingEv {α : Type} (run : PipelineRun α) : PipelineRun α :=
  match run.outcome with
  | .ok v => { outcome := .ok v, trace := TaskEv.logStart :: run.trace ++ [TaskEv.logDone] }
  | .error e => { outcome := .error e, trace := TaskEv.logStart :: run.trace ++ [TaskEv.logError] }

/-- GenerateNewsletter.executeWithTaskManagement: taskService.start() before
the try block, the logging-wrapped pipeline inside it, and taskService.end()
in the finally clause, so the release runs once on both exit paths before
the outcome (value or rethrown error) propagates. -/
def executeWithTaskManagement {α : Type} (pipeline : PipelineRun α) : PipelineRun α :=
  let inner := executeWithLoggingEv pipeline
  { outcome := inner.outcome,
    trace := TaskEv.taskStart :: inner.trace ++ [TaskEv.taskEnd] }

/-! ## Concrete fixtures used by witnesses -/

/-- A small crawl environment: two list items of which the second's detail
url is already known to the existing-articles collaborator. -/
def sampleCrawlEnv : CrawlEnv :=
  { fetchHtml := fun u =>
      match u with
      | some s => "HTML:" ++ s
      | none => "HTML:none"
    parseListCap := fun _ =>
      [[("detailUrl", "u1"), ("title", "A1")], [("detailUrl", "u2"), ("title", "A2")]]
    parseDetailCap := fun h => [("content", h)]
    existingArticlesByUrls := fun _ => [[("detailUrl", "u2")]] }

/-- An injective pipelineId generator for witness runs. -/
def sampleGen (i : Nat) : String := String.mk (List.replicate i 'a')

/-- Model capabilities whose classification permanently fails, image
analysis yields nothing, and the scoring model is down. -/
def failingCaps : ModelCaps :=
  { classify := fun _ _ => Except.error "classifier down"
    analyzeImages := fun _ => Except.ok none
    rawImportance := fun _ => Except.error "scorer down" }

/-- An unscored article fixture. -/
def sampleUnscored : Article :=
  { id := 1, tag1 := none, tag2 := none, tag3 := none, hasAttachedImage := false,
    imageContextByLlm := none, importanceScore := none }

/-- A fully enriched article fixture: three truthy tags and a truthy score. -/
def sampleComplete : Article :=
  { id := 1, tag1 := some "a", tag2 := some "b", tag3 := some "c",
    hasAttachedImage := false, imageContextByLlm := none, importanceScore := some 5 }

/-! ## Helper lemmas -/

theorem sampleGen_injective : Function.Injective sampleGen := by
  intro a b h
  have := congrArg (fun s => s.data.length) h
  simpa [sampleGen] using this

theorem clamp_bounds (n lo hi : Int) (h : lo ≤ hi) :
    lo ≤ clamp n lo hi ∧ clamp n lo hi ≤ hi := by
  unfold clamp
  constructor
  · exact le_max_left lo (min hi n)
  · exact max_le h (min_le_left hi n)

theorem fetchGo_attempt_le (env : Nat → AttemptOutcome) (now : Int)
    (jitter : Nat → Int) :
    ∀ fuel attempt, attempt + fuel ≤ maxRetries + 1 →
      (fetchGo env now jitter attempt fuel).1.attempt ≤ maxRetries := by
  intro fuel
  induction fuel with
  | zero =>
    intro a _
    simp [fetchGo, FetchResult.attempt, maxRetries]
  | succ n ih =>
    intro a h
    have ha : a ≤ maxRetries := by
      simp only [maxRetries] at h ⊢; omega
    simp only [fetchGo]
    cases henv : env a with
    | response status ra body =>
      by_cases hok : responseOk status = true
      · simp [hok, FetchResult.attempt, ha]
      · simp only [Bool.not_eq_true] at hok
        simp only [hok, Bool.false_eq_true, if_false]
        by_cases hstop : (!shouldRetry (some status) none || a == maxRetries) = true
        · simp [hstop, FetchResult.attempt, ha]
        · simp only [hstop, Bool.false_eq_true, if_false]
          exact ih (a + 1) (by omega)
    | thrown e =>
      by_cases hstop : (!shouldRetry none (some e) || a == maxRetries) = true
      · simp [hstop, FetchResult.attempt, ha]
      · simp only [hstop, Bool.false_eq_true, if_false]
        exact ih (a + 1) (by omega)

/-! ## Claim theorems -/

/-- C2: for a 429 response carrying a Retry-After header, a seconds value or
an HTTP-date value is parsed and clamped to [0, 60000] ms; when present and
valid the retry delay slept before the next attempt is the maximum of the
exponential backoff with jitter and the parsed value; an unparsable or past
HTTP date parses to absent, so the delay is the backoff alone. -/
theorem retryAfter_clamped_and_used :
    (∀ h now r, parseRetryAfter h now = some r → 0 ≤ r ∧ r ≤ 60000) ∧
    (∀ t now, t - now ≤ 0 →
      parseRetryAfter (RetryAfterHeader.httpDate t) now = none) ∧
    (∀ now, parseRetryAfter RetryAfterHeader.malformed now = none) ∧
    (∀ env now jitter ra body r,
      env 1 = AttemptOutcome.response 429 ra body →
      parseRetryAfter ra now = some r →
      (getHtmlFromUrl env now jitter).2.head? =
        some (max r (backoffMs 1 (jitter 1)))) ∧
    (∀ env now jitter ra body,
      env 1 = AttemptOutcome.response 429 ra body →
      parseRetryAfter ra now = none →
      (getHtmlFromUrl env now jitter).2.head? = some (backoffMs 1 (jitter 1))) := by
  refine ⟨?_, ?_, ?_, ?_, ?_⟩
  · intro h now r hr
    cases h with
    | absent => simp [parseRetryAfter] at hr
    | seconds n =>
      simp only [parseRetryAfter, Option.some.injEq] at hr
      subst hr
      exact clamp_bounds _ 0 60000 (by norm_num)
    | httpDate t =>
      simp only [parseRetryAfter] at hr
      by_cases hd : (0:Int) < t - now
      · rw [if_pos hd] at hr
        simp only [Option.some.injEq] at hr
        subst hr
        exact clamp_bounds _ 0 60000 (by norm_num)
      · rw [if_neg hd] at hr
        exact absurd hr (by simp)
    | malformed => simp [parseRetryAfter] at hr
  · intro t now h
    simp only [parseRetryAfter]
    rw [if_neg (by omega)]
  · intro now
    rfl
  · intro env now jitter ra body r henv hr
    simp only [getHtmlFromUrl, maxRetries, fetchGo, henv]
    simp [responseOk, shouldRetry, hr]
  · intro env now jitter ra body henv hr
    simp only [getHtmlFromUrl, maxRetries, fetchGo, henv]
    simp [responseOk, shouldRetry, hr]

/-- C2 witness: a clamped seconds value and a concrete 429 run whose first
retry delay is the maximum of the clamped Retry-After value and the
backoff. -/
theorem retryAfter_clamped_and_used_witness :
    ((0:Int) ≤ 30000 ∧ (30000:Int) ≤ 60000) ∧
    (getHtmlFromUrl (fun _ => AttemptOutcome.response 429 (RetryAfterHeader.seconds 120) "") 0
        (fun _ => 0)).2.head? = some (max 60000 (backoffMs 1 0)) := by
  constructor
  · exact retryAfter_clamped_and_used.1 (RetryAfterHeader.seconds 30) 0 30000 rfl
  · exact retryAfter_clamped_and_used.2.2.2.1
      (fun _ => AttemptOutcome.response 429 (RetryAfterHeader.seconds 120) "") 0
      (fun _ => 0) (RetryAfterHeader.seconds 120) "" 60000 rfl rfl

/-- C1 counterexample: the message "abort" mentions abort in the claim's
sense, but the code's classification only matches "aborted", so the thrown
error is fatal and the call fails on attempt 1 without any retry. -/
theorem fetch_classification_counterexample :
    specErrorRetryable "abort" = true ∧
    shouldRetry none (some { isError := true, msg := "abort" }) = false ∧
    (getHtmlFromUrl (fun _ => AttemptOutcome.thrown { isError := true, msg := "abort" }) 0
        (fun _ => 0)).1 = FetchResult.failure "abort" 1 := by
  refine ⟨by decide, by decide, by decide⟩

/-- C1 (amended): every call makes at most 5 attempts; an HTTP 429 or a
status ≥ 500 is classified retryable and the loop proceeds to the next
attempt when attempts remain; any other 4xx is fatal and never retried; a
thrown Error whose lowercased message contains aborted/timeout/network/fetch
is retried when attempts remain; any other thrown value fails immediately. -/
theorem fetch_attempts_and_classification :
    (∀ env now jitter, (getHtmlFromUrl env now jitter).1.attempt ≤ maxRetries) ∧
    shouldRetry (some 429) none = true ∧
    (∀ s, 500 ≤ s → shouldRetry (some s) none = true) ∧
    (∀ s, 400 ≤ s → s < 500 → s ≠ 429 → shouldRetry (some s) none = false) ∧
    (∀ e, shouldRetry none (some e) = errorRetryable e) ∧
    (∀ env now jitter attempt fuel status ra body,
      env attempt = AttemptOutcome.response status ra body →
      responseOk status = false →
      shouldRetry (some status) none = true → attempt ≠ maxRetries →
      (fetchGo env now jitter attempt (fuel + 1)).1 =
        (fetchGo env now jitter (attempt + 1) fuel).1) ∧
    (∀ env now jitter attempt fuel status ra body,
      env attempt = AttemptOutcome.response status ra body →
      responseOk status = false →
      shouldRetry (some status) none = false →
      fetchGo env now jitter attempt (fuel + 1) =
        (FetchResult.failure (statusFailMsg status) attempt, [])) ∧
    (∀ env now jitter attempt fuel e,
      env attempt = AttemptOutcome.thrown e → errorRetryable e = true →
      attempt ≠ maxRetries →
      (fetchGo env now jitter attempt (fuel + 1)).1 =
        (fetchGo env now jitter (attempt + 1) fuel).1) ∧
    (∀ env now jitter attempt fuel e,
      env attempt = AttemptOutcome.thrown e → errorRetryable e = false →
      fetchGo env now jitter attempt (fuel + 1) =
        (FetchResult.failure e.msg attempt, [])) := by
  refine ⟨?_, by decide, ?_, ?_, ?_, ?_, ?_, ?_, ?_⟩
  · intro env now jitter
    exact fetchGo_attempt_le env now jitter maxRetries 1 (by simp [maxRetries])
  · intro s hs
    simp only [shouldRetry, jsTruthyStatus, Option.getD_some]
    have h1 : (some s == some 429) = false := by
      simp only [beq_eq_false_iff_ne, ne_eq, Option.some.injEq]
      omega
    have h2 : (s != 0) = true := by
      simp only [bne_iff_ne, ne_eq]
      omega
    simp [h1, h2, hs]
  · intro s h4 h5 hne
    simp only [shouldRetry, jsTruthyStatus, Option.getD_some]
    have h1 : (some s == some 429) = false := by
      simp only [beq_eq_false_iff_ne, ne_eq, Option.some.injEq]
      omega
    have h2 : (s != 0) = true := by
      simp only [bne_iff_ne, ne_eq]
      omega
    have h3 : ¬(500 ≤ s) := by omega
    simp [h1, h2, h3, h4, h5]
  · intro e
    rfl
  · intro env now jitter attempt fuel status ra body henv hok hretry hne
    have hstop : (!shouldRetry (some status) none || attempt == maxRetries) = false := by
      simp [hretry, hne]
    simp only [fetchGo, henv, hok, Bool.false_eq_true, if_false, hstop]
  · intro env now jitter attempt fuel status ra body henv hok hretry
    have hstop : (!shouldRetry (some status) none || attempt == maxRetries) = true := by
      simp [hretry]
    simp only [fetchGo, henv, hok, Bool.false_eq_true, if_false, hstop, if_true]
  · intro env now jitter attempt fuel e henv hretry hne
    have hsr : shouldRetry none (some e) = true := hretry
    have hstop : (!shouldRetry none (some e) || attempt == maxRetries) = false := by
      simp [hsr, hne]
    simp only [fetchGo, henv, hstop, Bool.false_eq_true, if_false]
  · intro env now jitter attempt fuel e henv hretry
    have hsr : shouldRetry none (some e) = false := hretry
    have hstop : (!shouldRetry none (some e) || attempt == maxRetries) = true := by
      simp [hsr]
    simp only [fetchGo, henv, hstop, if_true]

/-- C1 witness: concrete instances of the amended classification: a 503 run
that retries into attempt 2, a 404 that fails immediately on attempt 1, and
a timeout Error that is retried. -/
theorem fetch_attempts_and_classification_witness :
    (getHtmlFromUrl (fun _ => AttemptOutcome.thrown { isError := true, msg := "x" }) 0
        (fun _ => 0)).1.attempt ≤ maxRetries ∧
    shouldRetry (some 503) none = true ∧
    shouldRetry (some 404) none = false ∧
    fetchGo (fun _ => AttemptOutcome.response 404 RetryAfterHeader.absent "") 0
        (fun _ => 0) 1 5 =
      (FetchResult.failure (statusFailMsg 404) 1, []) ∧
    (fetchGo (fun _ => AttemptOutcome.thrown { isError := true, msg := "timeout" }) 0
        (fun _ => 0) 1 5).1 =
      (fetchGo (fun _ => AttemptOutcome.thrown { isError := true, msg := "timeout" }) 0
        (fun _ => 0) 2 4).1 := by
  refine ⟨?_, ?_, ?_, ?_, ?_⟩
  · exact fetch_attempts_and_classification.1
      (fun _ => AttemptOutcome.thrown { isError := true, msg := "x" }) 0 (fun _ => 0)
  · exact fetch_attempts_and_classification.2.2.1 503 (by norm_num)
  · exact fetch_attempts_and_classification.2.2.2.1 404 (by norm_num) (by norm_num)
      (by norm_num)
  · exact fetch_attempts_and_classification.2.2.2.2.2.2.1
      (fun _ => AttemptOutcome.response 404 RetryAfterHeader.absent "") 0 (fun _ => 0)
      1 4 404 RetryAfterHeader.absent "" rfl (by decide) (by decide)
  · exact fetch_attempts_and_classification.2.2.2.2.2.2.2.1
      (fun _ => AttemptOutcome.thrown { isError := true, msg := "timeout" }) 0
      (fun _ => 0) 1 4 { isError := true, msg := "timeout" } rfl (by decide)
      (by decide)

/-- C9: for every invocation of the orchestrator's generate(),
taskService.end() runs after the macro-pipeline on both exit paths: the
wrapper's outcome is exactly the pipeline's outcome (resolution or rethrown
error), and the trace records exactly one task-release event, as the final
event. -/
theorem taskEnd_on_every_exit_path {α : Type} (p : PipelineRun α)
    (h : TaskEv.taskEnd ∉ p.trace) :
    (executeWithTaskManagement p).outcome = p.outcome ∧
    (executeWithTaskManagement p).trace.count TaskEv.taskEnd = 1 ∧
    (executeWithTaskManagement p).trace.getLast? = some TaskEv.taskEnd := by
  have hc : p.trace.count TaskEv.taskEnd = 0 := List.count_eq_zero.mpr h
  cases hout : p.outcome with
  | ok v =>
    refine ⟨?_, ?_, ?_⟩
    · simp [executeWithTaskManagement, executeWithLoggingEv, hout]
    · simp [executeWithTaskManagement, executeWithLoggingEv, hout,
        List.count_cons, List.count_append, hc]
    · simp only [executeWithTaskManagement, executeWithLoggingEv, hout]
      rw [show TaskEv.taskStart ::
          (TaskEv.logStart :: p.trace ++ [TaskEv.logDone]) ++ [TaskEv.taskEnd] =
          (TaskEv.taskStart :: (TaskEv.logStart :: p.trace ++ [TaskEv.logDone])) ++
            [TaskEv.taskEnd] from rfl]
      exact List.getLast?_concat _
  | error e =>
    refine ⟨?_, ?_, ?_⟩
    · simp [executeWithTaskManagement, executeWithLoggingEv, hout]
    · simp [executeWithTaskManagement, executeWithLoggingEv, hout,
        List.count_cons, List.count_append, hc]
    · simp only [executeWithTaskManagement, executeWithLoggingEv, hout]
      rw [show TaskEv.taskStart ::
          (TaskEv.logStart :: p.trace ++ [TaskEv.logError]) ++ [TaskEv.taskEnd] =
          (TaskEv.taskStart :: (TaskEv.logStart :: p.trace ++ [TaskEv.logError])) ++
            [TaskEv.taskEnd] from rfl]
      exact List.getLast?_concat _

/-- C9 witness: concrete resolving and rejecting pipeline runs both release
the task exactly once, as the last event, and keep their outcome. -/
theorem taskEnd_on_every_exit_path_witness :
    ((executeWithTaskManagement
        { outcome := Except.ok 7, trace := [TaskEv.pipelineRun] }).outcome =
          Except.ok 7 ∧
      (executeWithTaskManagement
        { outcome := Except.ok 7,
          trace := [TaskEv.pipelineRun] }).trace.count TaskEv.taskEnd = 1 ∧
      (executeWithTaskManagement
        { outcome := Except.ok 7, trace := [TaskEv.pipelineRun] }).trace.getLast? =
          some TaskEv.taskEnd) ∧
    ((executeWithTaskManagement
        { outcome := (Except.error "boom" : Except String Nat),
          trace := [TaskEv.pipelineRun] }).outcome = Except.error "boom" ∧
      (executeWithTaskManagement
        { outcome := (Except.error "boom" : Except String Nat),
          trace := [TaskEv.pipelineRun] }).trace.count TaskEv.taskEnd = 1 ∧
      (executeWithTaskManagement
        { outcome := (Except.error "boom" : Except String Nat),
          trace := [TaskEv.pipelineRun] }).trace.getLast? = some TaskEv.taskEnd) := by
  constructor
  · exact taskEnd_on_every_exit_path
      { outcome := Except.ok 7, trace := [TaskEv.pipelineRun] } (by decide)
  · exact taskEnd_on_every_exit_path
      { outcome := (Except.error "boom" : Except String Nat),
        trace := [TaskEv.pipelineRun] } (by decide)

/-- C8 counterexample: a group whose first target rejects and whose sibling
saves 3 articles: the batch driver rejects the whole group, so the group
total is never produced, while the claim's independent collection would
report the sibling's 3 saved articles. -/
theorem group_batch_isolation_counterexample :
    executeGroupPipeline [Except.error "boom", Except.ok 3] =
      Except.error "boom" ∧
    specIndependentGroupTotal [Except.error "boom", Except.ok 3] = 3 := by
  exact ⟨rfl, rfl⟩

/-- C8 (amended): the group batch is all-or-nothing: when every target's
sub-pipeline resolves, the group total is the sum of the per-target saved
counts (which coincides with independent collection); when any target's
sub-pipeline rejects, the whole batch call rejects, so sibling counts are
not contributed to any group total. -/
theorem group_batch_all_or_nothing :
    (∀ rs : List (Except String Nat), (∀ r ∈ rs, ∃ n, r = Except.ok n) →
      executeGroupPipeline rs = Except.ok (specIndependentGroupTotal rs)) ∧
    (∀ rs : List (Except String Nat), (∃ e, Except.error e ∈ rs) →
      ∃ e2, executeGroupPipeline rs = Except.error e2) := by
  have hbatch : ∀ rs : List (Except String Nat),
      (∀ r ∈ rs, ∃ n, r = Except.ok n) →
      batchCollect rs = Except.ok (rs.filterMap (fun r => r.toOption)) := by
    intro rs
    induction rs with
    | nil => intro _; rfl
    | cons r rest ih =>
      intro hall
      obtain ⟨n, hn⟩ := hall r (List.mem_cons_self r rest)
      subst hn
      have := ih (fun r2 h2 => hall r2 (List.mem_cons_of_mem _ h2))
      simp [batchCollect, this, List.filterMap_cons, Except.toOption]
  constructor
  · intro rs hall
    simp [executeGroupPipeline, hbatch rs hall, specIndependentGroupTotal]
  · intro rs
    induction rs with
    | nil =>
      intro hex
      obtain ⟨e, he⟩ := hex
      exact absurd he (List.not_mem_nil _)
    | cons r rest ih =>
      intro hex
      obtain ⟨e, he⟩ := hex
      cases r with
      | error e1 =>
        exact ⟨e1, by simp [executeGroupPipeline, batchCollect]⟩
      | ok n =>
        have hmem : Except.error e ∈ rest := by
          rcases List.mem_cons.mp he with h | h
          · exact absurd h (by simp)
          · exact h
        obtain ⟨e2, he2⟩ := ih ⟨e, hmem⟩
        refine ⟨e2, ?_⟩
        simp only [executeGroupPipeline, batchCollect] at he2 ⊢
        cases hb : batchCollect rest with
        | error e3 =>
          rw [hb] at he2
          simp at he2
          subst he2
          rfl
        | ok counts =>
          rw [hb] at he2
          simp at he2

/-- C8 amended-claim witness: an all-resolving group sums to the independent
total, and a group containing a rejection rejects. -/
theorem group_batch_all_or_nothing_witness :
    executeGroupPipeline [Except.ok 2, Except.ok 3] =
      Except.ok (specIndependentGroupTotal [Except.ok 2, Except.ok 3]) ∧
    ∃ e2, executeGroupPipeline [Except.ok 2, Except.error "down"] =
      Except.error e2 := by
  constructor
  · refine group_batch_all_or_nothing.1 [Except.ok 2, Except.ok 3] ?_
    intro r hr
    rcases List.mem_cons.mp hr with h | h
    · exact ⟨2, h⟩
    · rcases List.mem_cons.mp h with h2 | h2
      · exact ⟨3, h2⟩
      · exact absurd h2 (List.not_mem_nil _)
  · exact group_batch_all_or_nothing.2 [Except.ok 2, Except.error "down"]
      ⟨"down", by simp⟩

theorem lookupField_append (a b : Obj) (k : String) :
    lookupField (a ++ b) k =
      match lookupField a k with
      | some v => some v
      | none => lookupField b k := by
  induction a with
  | nil => simp [lookupField]
  | cons p rest ih =>
    by_cases hk : (p.1 == k) = true
    · simp [lookupField, hk]
    · simp only [Bool.not_eq_true] at hk
      simp [lookupField, hk, ih]

theorem lookupField_omitField (o : Obj) (k k2 : String) :
    lookupField (omitField o k) k2 =
      if k2 = k then none else lookupField o k2 := by
  induction o with
  | nil => simp [omitField, lookupField]
  | cons p rest ih =>
    by_cases hpk : (p.1 != k) = true
    · have hstep : omitField (p :: rest) k = p :: omitField rest k := by
        simp [omitField, List.filter_cons, hpk]
      rw [hstep]
      by_cases hpk2 : (p.1 == k2) = true
      · have : ¬(k2 = k) := by
          have h1 : p.1 = k2 := by exact beq_iff_eq.mp hpk2
          have h2 : p.1 ≠ k := by exact bne_iff_ne.mp hpk
          rw [← h1]; exact fun hc => h2 (by rw [hc])
        simp [lookupField, hpk2, this]
      · simp only [Bool.not_eq_true] at hpk2
        simp [lookupField, hpk2, ih]
    · have hpk3 : (p.1 != k) = false := by
        simp only [Bool.not_eq_true] at hpk; exact hpk
      have hstep : omitField (p :: rest) k = omitField rest k := by
        simp [omitField, List.filter_cons, hpk3]
      rw [hstep, ih]
      have hpeq : p.1 = k := by
        have := bne_eq_false_iff_eq.mp hpk3
        exact this
      by_cases hk2 : k2 = k
      · simp [hk2]
      · have : (p.1 == k2) = false := by
          simp only [beq_eq_false_iff_ne, ne_eq, hpeq]
          exact fun hc => hk2 hc.symm
        simp [lookupField, this, hk2]

theorem lookupField_spread_left (a b : Obj) (k : String) :
    lookupField (a.filter (fun p => !(hasField b p.1))) k =
      if hasField b k then none else lookupField a k := by
  induction a with
  | nil => simp [lookupField]
  | cons p rest ih =>
    by_cases hb : hasField b p.1 = true
    · have hstep : (p :: rest).filter (fun q => !(hasField b q.1)) =
          rest.filter (fun q => !(hasField b q.1)) := by
        simp [List.filter_cons, hb]
      rw [hstep, ih]
      by_cases hpk : (p.1 == k) = true
      · have hpk2 : p.1 = k := beq_iff_eq.mp hpk
        rw [← hpk2]
        simp [hb, lookupField]
      · simp only [Bool.not_eq_true] at hpk
        by_cases hbk : hasField b k = true
        · simp [hbk]
        · simp only [Bool.not_eq_true] at hbk
          simp [hbk, lookupField, hpk]
    · simp only [Bool.not_eq_true] at hb
      have hstep : (p :: rest).filter (fun q => !(hasField b q.1)) =
          p :: rest.filter (fun q => !(hasField b q.1)) := by
        simp [List.filter_cons, hb]
      rw [hstep]
      by_cases hpk : (p.1 == k) = true
      · have hpk2 : p.1 = k := beq_iff_eq.mp hpk
        rw [← hpk2]
        simp [hb, lookupField]
      · simp only [Bool.not_eq_true] at hpk
        simp [lookupField, hpk, ih]

theorem lookupField_spreadObj (a b : Obj) (k : String) :
    lookupField (spreadObj a b) k =
      match lookupField b k with
      | some v => some v
      | none => lookupField a k := by
  unfold spreadObj
  rw [lookupField_append, lookupField_spread_left]
  cases hb : lookupField b k with
  | none =>
    have : hasField b k = false := by simp [hasField, hb]
    simp only [this, Bool.false_eq_true, if_false]
    cases lookupField a k <;> rfl
  | some v =>
    have : hasField b k = true := by simp [hasField, hb]
    simp [this]

theorem lookupField_mergeRecord (li d : Obj) (k : String) :
    lookupField (mergeRecord li d) k =
      if k = "pipelineId" then none
      else
        match lookupField d k with
        | some v => some v
        | none => lookupField li k := by
  unfold mergeRecord
  rw [lookupField_spreadObj, lookupField_omitField, lookupField_omitField]
  by_cases hk : k = "pipelineId"
  · simp [hk]
  · simp [hk]

theorem mergeDetails_ok_spec (m : List (Option Val × Obj)) :
    ∀ details merged, mergeDetails m details = Except.ok merged →
      merged.length = details.length ∧
      ∀ p ∈ details.zip merged, ∃ li,
        mapGet m (lookupField p.1 "pipelineId") = some li ∧
        p.2 = mergeRecord li p.1 := by
  intro details
  induction details with
  | nil =>
    intro merged h
    simp only [mergeDetails] at h
    cases h
    simp
  | cons d rest ih =>
    intro merged h
    simp only [mergeDetails] at h
    cases hm : mapGet m (lookupField d "pipelineId") with
    | none => rw [hm] at h; cases h
    | some li =>
      rw [hm] at h
      cases hr : mergeDetails m rest with
      | error e => rw [hr] at h; cases h
      | ok ms =>
        rw [hr] at h
        cases h
        obtain ⟨hlen, hall⟩ := ih ms hr
        refine ⟨by simp [hlen], ?_⟩
        intro p hp
        rcases List.mem_cons.mp hp with hp1 | hp2
        · subst hp1
          exact ⟨li, hm, rfl⟩
        · exact hall p hp2

/-- C3: for every detail record whose correlation id matches a list item,
the merged record's fields are exactly the union of the list item's fields
and the detail's fields minus the pipelineId field, the detail's value
winning on shared keys: a key k is present in the merged record iff k is not
pipelineId and is a field of the detail (whose value it takes) or else of
the matched list item. -/
theorem merge_field_union (list details merged : List Obj)
    (h : mergeParsedArticles list details = Except.ok merged) :
    merged.length = details.length ∧
    ∀ p ∈ details.zip merged, ∃ li,
      mapGet (buildListItemMap list) (lookupField p.1 "pipelineId") = some li ∧
      ∀ k, lookupField p.2 k =
        if k = "pipelineId" then none
        else
          match lookupField p.1 k with
          | some v => some v
          | none => lookupField li k := by
  obtain ⟨hlen, hall⟩ := mergeDetails_ok_spec (buildListItemMap list) details merged h
  refine ⟨hlen, ?_⟩
  intro p hp
  obtain ⟨li, hm, hrec⟩ := hall p hp
  refine ⟨li, hm, ?_⟩
  intro k
  rw [hrec]
  exact lookupField_mergeRecord li p.1 k

/-- C3 witness: one list item { pipelineId, title, detailUrl } and one
matching detail { pipelineId, content }: the merged run yields exactly
{ title, detailUrl, content }, which the theorem characterizes. -/
theorem merge_field_union_witness :
    mergeParsedArticles [[("pipelineId", "p1"), ("title", "T"), ("detailUrl", "u")]]
        [[("pipelineId", "p1"), ("content", "C")]] =
      Except.ok [[("title", "T"), ("detailUrl", "u"), ("content", "C")]] ∧
    ([[("title", "T"), ("detailUrl", "u"), ("content", "C")]] : List Obj).length =
        ([[("pipelineId", "p1"), ("content", "C")]] : List Obj).length ∧
    ∀ p ∈ ([[("pipelineId", "p1"), ("content", "C")]] : List Obj).zip
        [[("title", "T"), ("detailUrl", "u"), ("content", "C")]], ∃ li,
      mapGet (buildListItemMap [[("pipelineId", "p1"), ("title", "T"), ("detailUrl", "u")]])
          (lookupField p.1 "pipelineId") = some li ∧
      ∀ k, lookupField p.2 k =
        if k = "pipelineId" then none
        else
          match lookupField p.1 k with
          | some v => some v
          | none => lookupField li k := by
  refine ⟨rfl, ?_⟩
  exact merge_field_union
    [[("pipelineId", "p1"), ("title", "T"), ("detailUrl", "u")]]
    [[("pipelineId", "p1"), ("content", "C")]]
    [[("title", "T"), ("detailUrl", "u"), ("content", "C")]] rfl

/-- C4: a detail whose correlation id matches no list item makes the merge
stage return an error (it is never silently dropped), while under the
precondition that every detail's correlation id is matched, the error branch
is unreachable: the merge resolves and keeps every detail. -/
theorem merge_unmatched_detail_throws (list details : List Obj) :
    ((∃ d ∈ details,
        mapGet (buildListItemMap list) (lookupField d "pipelineId") = none) →
      ∃ e, mergeParsedArticles list details = Except.error e) ∧
    ((∀ d ∈ details,
        (mapGet (buildListItemMap list) (lookupField d "pipelineId")).isSome = true) →
      ∃ merged, mergeParsedArticles list details = Except.ok merged ∧
        merged.length = details.length) := by
  constructor
  · intro hex
    unfold mergeParsedArticles
    induction details with
    | nil =>
      obtain ⟨d, hd, _⟩ := hex
      exact absurd hd (List.not_mem_nil d)
    | cons d rest ih =>
      cases hm : mapGet (buildListItemMap list) (lookupField d "pipelineId") with
      | none =>
        exact ⟨"No matching list item for detail with pipelineId: " ++
          pidString (lookupField d "pipelineId"), by simp [mergeDetails, hm]⟩
      | some li =>
        obtain ⟨d2, hd2, hnone⟩ := hex
        have hd2r : d2 ∈ rest := by
          rcases List.mem_cons.mp hd2 with h1 | h1
          · subst h1; rw [hm] at hnone; cases hnone
          · exact h1
        obtain ⟨e, he⟩ := ih ⟨d2, hd2r, hnone⟩
        refine ⟨e, ?_⟩
        simp [mergeDetails, hm, he]
  · intro hall
    unfold mergeParsedArticles
    induction details with
    | nil => exact ⟨[], rfl, rfl⟩
    | cons d rest ih =>
      have hd := hall d (List.mem_cons_self d rest)
      cases hm : mapGet (buildListItemMap list) (lookupField d "pipelineId") with
      | none => rw [hm] at hd; cases hd
      | some li =>
        obtain ⟨ms, hms, hlen⟩ :=
          ih (fun d2 h2 => hall d2 (List.mem_cons_of_mem d h2))
        refine ⟨mergeRecord li d :: ms, ?_, by simp [hlen]⟩
        simp [mergeDetails, hm, hms]

/-- C4 witness: a detail with pipelineId p2 against a list whose only item
has p1 errors, and the same detail with p1 merges with all details kept. -/
theorem merge_unmatched_detail_throws_witness :
    (∃ e, mergeParsedArticles [[("pipelineId", "p1"), ("title", "T")]]
        [[("pipelineId", "p2"), ("content", "C")]] = Except.error e) ∧
    (∃ merged, mergeParsedArticles [[("pipelineId", "p1"), ("title", "T")]]
        [[("pipelineId", "p1"), ("content", "C")]] = Except.ok merged ∧
      merged.length = ([[("pipelineId", "p1"), ("content", "C")]] : List Obj).length) := by
  constructor
  · exact (merge_unmatched_detail_throws [[("pipelineId", "p1"), ("title", "T")]]
      [[("pipelineId", "p2"), ("content", "C")]]).1
      ⟨[("pipelineId", "p2"), ("content", "C")], List.mem_singleton.mpr rfl, by decide⟩
  · exact (merge_unmatched_detail_throws [[("pipelineId", "p1"), ("title", "T")]]
      [[("pipelineId", "p1"), ("content", "C")]]).2 (by decide)

theorem length_filter_not {α : Type} (p : α → Bool) (l : List α) :
    (l.filter (fun x => !(p x))).length = l.length - (l.filter p).length := by
  induction l with
  | nil => rfl
  | cons a rest ih =>
    have hle : (rest.filter p).length ≤ rest.length := List.length_filter_le p rest
    by_cases hp : p a = true
    · simp [List.filter_cons, hp, ih]
    · simp only [Bool.not_eq_true] at hp
      simp [List.filter_cons, hp, ih]
      omega

/-- C5: dedup is exact and early: (a) for every parsed list the dedup output
size is the input size minus the number of items whose detail url is in the
existing set; (b) within one target's sub-pipeline the detail urls handed to
getHtmlFromUrl by the detail-fetch stage are exactly the urls of the dedup
survivors, in order; (c) no fetched detail url lies in the existing set, so
the dedup stage filtered before any detail fetch was issued. -/
theorem dedup_exact_and_before_detail_fetch (env : CrawlEnv) (gen : Nat → String)
    (listUrl : Option Val) :
    (∀ parsedList : List Obj, (dedupeListItems env parsedList).length =
      parsedList.length -
        (parsedList.filter (fun item =>
          (existingUrlSet env parsedList).contains (lookupField item "detailUrl"))).length) ∧
    (executeTargetPipeline env gen listUrl).fetchedDetailUrls =
      (dedupeListItems env (executeTargetPipeline env gen listUrl).parsedList).map
        (fun d => lookupField d "detailUrl") ∧
    (∀ u ∈ (executeTargetPipeline env gen listUrl).fetchedDetailUrls,
      (existingUrlSet env (executeTargetPipeline env gen listUrl).parsedList).contains u
        = false) := by
  refine ⟨?_, ?_, ?_⟩
  · intro parsedList
    unfold dedupeListItems
    exact length_filter_not _ parsedList
  · rfl
  · intro u hu
    simp only [executeTargetPipeline, List.mem_map] at hu
    obtain ⟨d, hd, hdu⟩ := hu
    unfold dedupeListItems at hd
    have := List.of_mem_filter hd
    simp only [Bool.not_eq_true'] at this
    rw [← hdu]
    exact this

/-- C5 witness: in the sample environment, of 2 parsed items 1 is already
known: 1 survivor, and the already-known url u2 is never a fetched detail
url (the single fetched url is u1, which is not in the existing set). -/
theorem dedup_exact_and_before_detail_fetch_witness :
    (dedupeListItems sampleCrawlEnv
      (executeTargetPipeline sampleCrawlEnv sampleGen (some "L")).parsedList).length =
      (executeTargetPipeline sampleCrawlEnv sampleGen (some "L")).parsedList.length -
        ((executeTargetPipeline sampleCrawlEnv sampleGen (some "L")).parsedList.filter
          (fun item =>
            (existingUrlSet sampleCrawlEnv
              (executeTargetPipeline sampleCrawlEnv sampleGen (some "L")).parsedList).contains
              (lookupField item "detailUrl"))).length ∧
    (existingUrlSet sampleCrawlEnv
      (executeTargetPipeline sampleCrawlEnv sampleGen (some "L")).parsedList).contains
        (some "u1") = false := by
  constructor
  · exact (dedup_exact_and_before_detail_fetch sampleCrawlEnv sampleGen (some "L")).1
      (executeTargetPipeline sampleCrawlEnv sampleGen (some "L")).parsedList
  · exact (dedup_exact_and_before_detail_fetch sampleCrawlEnv sampleGen (some "L")).2.2
      (some "u1") (by decide)

theorem pid_of_minted (item : Obj) (g : String) :
    lookupField (spreadObj item [("pipelineId", g)]) "pipelineId" = some g := by
  rw [lookupField_spreadObj]
  simp [lookupField]

theorem parseListStage_pids (env : CrawlEnv) (gen : Nat → String) (html : String) :
    (parseListStage env gen html).map (fun o => lookupField o "pipelineId") =
      (List.range (env.parseListCap html).length).map (fun i => some (gen i)) := by
  unfold parseListStage
  rw [List.map_map]
  rw [List.map_congr_left (l := (env.parseListCap html).enum)
    (f := (fun o => lookupField o "pipelineId") ∘
      (fun p : Nat × Obj => spreadObj p.2 [("pipelineId", gen p.1)]))
    (g := fun p : Nat × Obj => some (gen p.1))
    (fun p _ => pid_of_minted p.2 (gen p.1))]
  rw [show (fun p : Nat × Obj => some (gen p.1)) =
    (fun i => some (gen i)) ∘ Prod.fst from rfl]
  rw [← List.map_map, List.enum_map_fst]

theorem parseListStage_pids_nodup (env : CrawlEnv) (gen : Nat → String)
    (html : String) (hgen : Function.Injective gen) :
    ((parseListStage env gen html).map (fun o => lookupField o "pipelineId")).Nodup := by
  rw [parseListStage_pids]
  refine List.Nodup.map ?_ (List.nodup_range _)
  intro a b h
  exact hgen (Option.some.inj h)

theorem mapGet_eq_none (list : List Obj) (k : Option Val)
    (h : k ∉ list.map (fun o => lookupField o "pipelineId")) :
    mapGet (buildListItemMap list) k = none := by
  induction list with
  | nil => rfl
  | cons a rest ih =>
    simp only [List.map_cons, List.mem_cons, not_or] at h
    obtain ⟨hhead, htail⟩ := h
    have hrest := ih htail
    simp only [buildListItemMap, List.map_cons, mapGet]
    rw [show buildListItemMap rest =
      rest.map (fun item => (lookupField item "pipelineId", item)) from rfl] at hrest
    rw [hrest]
    have : (lookupField a "pipelineId" == k) = false := by
      simp only [beq_eq_false_iff_ne, ne_eq]
      exact fun hc => hhead (hc ▸ rfl)
    simp [this]

theorem mapGet_self (list : List Obj)
    (hnd : (list.map (fun o => lookupField o "pipelineId")).Nodup) :
    ∀ o ∈ list, mapGet (buildListItemMap list) (lookupField o "pipelineId") = some o := by
  induction list with
  | nil => intro o ho; exact absurd ho (List.not_mem_nil o)
  | cons a rest ih =>
    simp only [List.map_cons, List.nodup_cons] at hnd
    obtain ⟨hhead, htail⟩ := hnd
    intro o ho
    rcases List.mem_cons.mp ho with h1 | h1
    · subst h1
      simp only [buildListItemMap, List.map_cons, mapGet]
      have hrest := mapGet_eq_none rest (lookupField o "pipelineId") hhead
      rw [show buildListItemMap rest =
        rest.map (fun item => (lookupField item "pipelineId", item)) from rfl] at hrest
      rw [hrest]
      simp
    · have := ih htail o h1
      simp only [buildListItemMap, List.map_cons, mapGet]
      rw [show buildListItemMap rest =
        rest.map (fun item => (lookupField item "pipelineId", item)) from rfl] at this
      rw [this]

theorem details_eq_map_detailFor (env : CrawlEnv) (list : List Obj) :
    parseDetailPagesHtml env (fetchDetailPagesHtml env list) =
      list.map (detailFor env) := by
  induction list with
  | nil => rfl
  | cons d rest ih =>
    simp only [fetchDetailPagesHtml, parseDetailPagesHtml, List.map_cons,
      List.zip_cons_cons, detailFor] at *
    exact congrArg _ ih

theorem pid_detailFor (env : CrawlEnv)
    (hpd : ∀ html, lookupField (env.parseDetailCap html) "pipelineId" = none)
    (o : Obj) :
    lookupField (detailFor env o) "pipelineId" = lookupField o "pipelineId" := by
  unfold detailFor
  rw [lookupField_spreadObj, hpd]
  cases h : lookupField o "pipelineId" with
  | none => rfl
  | some g => simp [pidEntry, lookupField]

theorem mergeDetails_aligned (m : List (Option Val × Obj)) (f : Obj → Obj) :
    ∀ ls : List Obj,
      (∀ s ∈ ls, mapGet m (lookupField (f s) "pipelineId") = some s) →
      mergeDetails m (ls.map f) =
        Except.ok (ls.map (fun s => mergeRecord s (f s))) := by
  intro ls
  induction ls with
  | nil => intro _; rfl
  | cons s rest ih =>
    intro hall
    have hhead := hall s (List.mem_cons_self s rest)
    have htail := ih (fun s2 h2 => hall s2 (List.mem_cons_of_mem s h2))
    simp [mergeDetails, hhead, htail]

/-- C10: order preservation through the crawl sub-pipeline: when the
pipelineId generator is injective (randomUUID freshness) and the target's
detail parser emits no pipelineId field of its own, the merge of one
target's run succeeds and produces exactly the map, over the dedup survivors
in their parseList order, of the merged record of each survivor with the
detail parsed from its own fetched page; the survivors themselves are an
in-order sublist of the parsed list. -/
theorem crawl_order_preservation (env : CrawlEnv) (gen : Nat → String)
    (listUrl : Option Val) (hgen : Function.Injective gen)
    (hpd : ∀ html, lookupField (env.parseDetailCap html) "pipelineId" = none) :
    List.Sublist (executeTargetPipeline env gen listUrl).survivors
      (executeTargetPipeline env gen listUrl).parsedList ∧
    (executeTargetPipeline env gen listUrl).mergeOutcome =
      Except.ok ((executeTargetPipeline env gen listUrl).survivors.map
        (fun s => mergeRecord s (detailFor env s))) := by
  have hrun_parsed : (executeTargetPipeline env gen listUrl).parsedList =
      parseListStage env gen (env.fetchHtml listUrl) := rfl
  have hrun_surv : (executeTargetPipeline env gen listUrl).survivors =
      dedupeListItems env (parseListStage env gen (env.fetchHtml listUrl)) := rfl
  have hsub : List.Sublist
      (dedupeListItems env (parseListStage env gen (env.fetchHtml listUrl)))
      (parseListStage env gen (env.fetchHtml listUrl)) := by
    unfold dedupeListItems
    exact List.filter_sublist _
  constructor
  · rw [hrun_parsed, hrun_surv]
    exact hsub
  · have hpids : ((dedupeListItems env
        (parseListStage env gen (env.fetchHtml listUrl))).map
        (fun o => lookupField o "pipelineId")).Nodup :=
      List.Nodup.sublist (List.Sublist.map _ hsub)
        (parseListStage_pids_nodup env gen (env.fetchHtml listUrl) hgen)
    have hself := mapGet_self
      (dedupeListItems env (parseListStage env gen (env.fetchHtml listUrl))) hpids
    have hrun_merge : (executeTargetPipeline env gen listUrl).mergeOutcome =
        mergeParsedArticles
          (dedupeListItems env (parseListStage env gen (env.fetchHtml listUrl)))
          (parseDetailPagesHtml env (fetchDetailPagesHtml env
            (dedupeListItems env (parseListStage env gen (env.fetchHtml listUrl))))) := rfl
    rw [hrun_merge, hrun_surv,
      details_eq_map_detailFor env
        (dedupeListItems env (parseListStage env gen (env.fetchHtml listUrl)))]
    unfold mergeParsedArticles
    exact mergeDetails_aligned _ (detailFor env) _
      (fun s hs => by rw [pid_detailFor env hpd s]; exact hself s hs)

/-- C10 witness: the sample run (2 parsed items, 1 survivor) merges into
exactly the survivor's merged record, and the survivors are a sublist of the
parsed list. -/
theorem crawl_order_preservation_witness :
    List.Sublist (executeTargetPipeline sampleCrawlEnv sampleGen (some "L")).survivors
      (executeTargetPipeline sampleCrawlEnv sampleGen (some "L")).parsedList ∧
    (executeTargetPipeline sampleCrawlEnv sampleGen (some "L")).mergeOutcome =
      Except.ok ((executeTargetPipeline sampleCrawlEnv sampleGen (some "L")).survivors.map
        (fun s => mergeRecord s (detailFor sampleCrawlEnv s))) :=
  crawl_order_preservation sampleCrawlEnv sampleGen (some "L")
    sampleGen_injective (fun _ => rfl)

theorem determineGo_spec (caps : ModelCaps) (l : List Article) :
    (determineGo caps l).1.length = l.length ∧
    ∀ a ∈ (determineGo caps l).1,
      ∃ s, a.importanceScore = some s ∧ 1 ≤ s ∧ s ≤ 10 := by
  induction l with
  | nil => exact ⟨rfl, fun a ha => absurd ha (List.not_mem_nil a)⟩
  | cons a rest ih =>
    obtain ⟨hlen, hall⟩ := ih
    cases hds : determineScore caps a with
    | ok s =>
      have hrange : 1 ≤ s ∧ s ≤ 10 := by
        unfold determineScore at hds
        cases hraw : caps.rawImportance a with
        | error e => rw [hraw] at hds; cases hds
        | ok raw =>
          rw [hraw] at hds
          dsimp only at hds
          unfold zodValidateImportance at hds
          by_cases hr : 1 ≤ raw ∧ raw ≤ 10
          · rw [if_pos hr] at hds; cases hds; exact hr
          · rw [if_neg hr] at hds; cases hds
      constructor
      · simp [determineGo, hds, hlen]
      · intro a2 ha2
        simp only [determineGo, hds] at ha2
        rcases List.mem_cons.mp ha2 with h1 | h1
        · subst h1; exact ⟨s, rfl, hrange.1, hrange.2⟩
        · exact hall a2 h1
    | error e =>
      constructor
      · simp [determineGo, hds, hlen]
      · intro a2 ha2
        simp only [determineGo, hds] at ha2
        rcases List.mem_cons.mp ha2 with h1 | h1
        · subst h1
          exact ⟨1, rfl, by norm_num, by norm_num⟩
        · exact hall a2 h1

theorem runPass_spec (caps : ModelCaps) (unscored : List Article)
    (tags0 : List String) :
    (runPass caps unscored tags0).articles.length = unscored.length ∧
    ∀ a ∈ (runPass caps unscored tags0).articles,
      ∃ s, a.importanceScore = some s ∧ 1 ≤ s := by
  obtain ⟨hlen, hall⟩ := determineGo_spec caps
    (mergeTagsAndImageContext unscored (classifyGo caps unscored tags0).2.1
      (imageGo caps unscored).1)
  constructor
  · show (determineGo caps (mergeTagsAndImageContext unscored
      (classifyGo caps unscored tags0).2.1 (imageGo caps unscored).1)).1.length =
      unscored.length
    rw [hlen]
    simp [mergeTagsAndImageContext]
  · intro a ha
    obtain ⟨s, h1, h2, _⟩ := hall a ha
    exact ⟨s, h1, h2⟩

theorem reprocessGo_preserves (caps : ModelCaps) (unscored : List Article) :
    ∀ k current tags iter,
      maxIterations - iter ≤ k → iter ≤ maxIterations →
      (∀ a ∈ current, ∃ s, a.importanceScore = some s ∧ 1 ≤ s) →
      (reprocessGo caps unscored current tags iter).articles.length = current.length ∧
      (∀ a ∈ (reprocessGo caps unscored current tags iter).articles,
        ∃ s, a.importanceScore = some s ∧ 1 ≤ s) ∧
      (reprocessGo caps unscored current tags iter).iterations ≤ maxIterations := by
  intro k
  induction k with
  | zero =>
    intro current tags iter hk hle hinv
    have hstop : maxIterations ≤ iter := by omega
    rw [reprocessGo]
    rw [if_pos hstop]
    exact ⟨rfl, hinv, hle⟩
  | succ n ih =>
    intro current tags iter hk hle hinv
    rw [reprocessGo]
    by_cases hstop : maxIterations ≤ iter
    · rw [if_pos hstop]
      exact ⟨rfl, hinv, hle⟩
    · rw [if_neg hstop]
      by_cases hcomp : (((current.filter isIncomplete).length == 0) = true)
      · rw [if_pos hcomp]
        exact ⟨rfl, hinv, hle⟩
      · rw [if_neg hcomp]
        dsimp only
        have hupd_len : (current.map (fun a =>
            match (runPass caps unscored tags).articles.find? (fun r => r.id == a.id) with
            | some r => r
            | none => a)).length = current.length := by
          simp
        have hupd_inv : ∀ a ∈ current.map (fun a =>
            match (runPass caps unscored tags).articles.find? (fun r => r.id == a.id) with
            | some r => r
            | none => a),
            ∃ s, a.importanceScore = some s ∧ 1 ≤ s := by
          intro a ha
          simp only [List.mem_map] at ha
          obtain ⟨a0, ha0, heq⟩ := ha
          cases hf : (runPass caps unscored tags).articles.find? (fun r => r.id == a0.id) with
          | some r =>
            rw [hf] at heq
            subst heq
            exact (runPass_spec caps unscored tags).2 r (List.mem_of_find?_eq_some hf)
          | none =>
            rw [hf] at heq
            subst heq
            exact hinv a0 ha0
        obtain ⟨h1, h2, h3⟩ := ih
          (current.map (fun a =>
            match (runPass caps unscored tags).articles.find? (fun r => r.id == a.id) with
            | some r => r
            | none => a))
          (runPass caps unscored tags).tags (iter + 1) (by omega) (by omega) hupd_inv
        refine ⟨?_, h2, h3⟩
        rw [h1, hupd_len]

/-- C6: under permanently failing classification calls, the enrichment loop
still exits with its iteration counter at most 5, keeps every article of the
batch (the returned set has the input's size), and every returned article
carries an importance score of at least the fallback value 1. -/
theorem enrichment_bounded_and_scored (caps : ModelCaps)
    (unscored : List Article) (tags0 : List String)
    (hfail : ∀ a tags, ∃ e, caps.classify a tags = Except.error e) :
    (generateInsights caps unscored tags0).iterations ≤ maxIterations ∧
    (generateInsights caps unscored tags0).articles.length = unscored.length ∧
    ∀ a ∈ (generateInsights caps unscored tags0).articles,
      ∃ s, a.importanceScore = some s ∧ 1 ≤ s := by
  obtain ⟨hplen, hpall⟩ := runPass_spec caps unscored tags0
  obtain ⟨h1, h2, h3⟩ := reprocessGo_preserves caps unscored maxIterations
    (runPass caps unscored tags0).articles (runPass caps unscored tags0).tags 0
    (by omega) (by omega) hpall
  refine ⟨h3, ?_, h2⟩
  show (reprocessGo caps unscored (runPass caps unscored tags0).articles
    (runPass caps unscored tags0).tags 0).articles.length = unscored.length
  rw [h1, hplen]

/-- C6 witness: one unscored article under a permanently failing classifier
and a down scorer: the loop exits within 5 iterations, keeps the article,
and scores it at least 1 (the fallback). -/
theorem enrichment_bounded_and_scored_witness :
    (generateInsights failingCaps [sampleUnscored] []).iterations ≤ maxIterations ∧
    (generateInsights failingCaps [sampleUnscored] []).articles.length =
      [sampleUnscored].length ∧
    ∀ a ∈ (generateInsights failingCaps [sampleUnscored] []).articles,
      ∃ s, a.importanceScore = some s ∧ 1 ≤ s :=
  enrichment_bounded_and_scored failingCaps [sampleUnscored] []
    (fun _ _ => ⟨"classifier down", rfl⟩)

/-- C7: once every article of the enrichment accumulator has three truthy
tags and a truthy importance score, one further pass of the loop returns the
accumulator unchanged, with the iteration counter untouched and zero
classification, image-analysis and scoring model calls. -/
theorem enrichment_converged_pass_noop (caps : ModelCaps)
    (unscored current : List Article) (tags : List String) (iter : Nat)
    (h : ∀ a ∈ current, isIncomplete a = false) :
    reprocessGo caps unscored current tags iter =
      { articles := current, tags := tags, iterations := iter,
        classifyCalls := 0, imageCalls := 0, scoreCalls := 0 } := by
  rw [reprocessGo]
  by_cases hstop : maxIterations ≤ iter
  · rw [if_pos hstop]
  · rw [if_neg hstop]
    have hnil : current.filter isIncomplete = [] := by
      rw [List.filter_eq_nil_iff]
      intro a ha
      simp [h a ha]
    rw [if_pos (by simp [hnil])]

/-- C7 witness: a converged one-article accumulator under arbitrary (even
failing) capabilities: a further loop pass is the identity and makes no
model call. -/
theorem enrichment_converged_pass_noop_witness :
    reprocessGo failingCaps [sampleUnscored] [sampleComplete] ["a"] 1 =
      { articles := [sampleComplete], tags := ["a"], iterations := 1,
        classifyCalls := 0, imageCalls := 0, scoreCalls := 0 } :=
  enrichment_converged_pass_noop failingCaps [sampleUnscored] [sampleComplete]
    ["a"] 1 (by decide)
